import Mathlib

set_option autoImplicit false

namespace Notehub

/-!
Verification of the notehub core: cache addressing and discovery, the
version-controlled note store, the sync reconciler, and the `gh` wrapper's
environment preparation.  Definitions are shallow embeddings of the Python
source (`src/notehub/...`); where a module is absent from the source tree
(only its unit tests remain), the definition is modelled from the spec and
pinned by those tests, as noted in its doc comment.
-/

/-! ## Process environment model (for `gh_wrapper._prepare_gh_cmd`) -/

/-- A process environment: an association list from variable names to values,
with first-match lookup and replace-or-append update (dictionary semantics,
mirroring Python's `os.environ` dict). -/
abbrev Env := List (String × String)

/-- Python `env.get(k)` / `env[k]`: first binding of `k`, if any. -/
def envLookup : Env → String → Option String
  | [], _ => none
  | (k1, v1) :: rest, k => if k1 = k then some v1 else envLookup rest k

/-- Python `k in env`. -/
def envMem (env : Env) (k : String) : Bool :=
  (envLookup env k).isSome

/-- Python `env[k] = v`: replace the first binding of `k`, or append one. -/
def envSet : Env → String → String → Env
  | [], k, v => [(k, v)]
  | (k1, v1) :: rest, k, v =>
      if k1 = k then (k, v) :: rest else (k1, v1) :: envSet rest k v

/-- The token-priority chain of `_prepare_gh_cmd`
(`src/src/notehub/gh_wrapper.py` lines 44-50): the value of the first
*present* variable among `GH_ENTERPRISE_TOKEN_2`, `GH_ENTERPRISE_TOKEN`,
`GH_TOKEN`; `none` when none of the three is present.  `GITHUB_TOKEN` is
never consulted. -/
def selectToken (env : Env) : Option String :=
  if envMem env "GH_ENTERPRISE_TOKEN_2" then envLookup env "GH_ENTERPRISE_TOKEN_2"
  else if envMem env "GH_ENTERPRISE_TOKEN" then envLookup env "GH_ENTERPRISE_TOKEN"
  else if envMem env "GH_TOKEN" then envLookup env "GH_TOKEN"
  else none

/-- Lines 52-55 of `_prepare_gh_cmd`: if a token was found, set both
`GH_TOKEN` and `GH_ENTERPRISE_TOKEN` to it.  The guard mirrors Python's
`if token:`, under which both `None` and the empty string are falsy. -/
def apply_token (env : Env) : Env :=
  match selectToken env with
  | some t =>
      if t = "" then env
      else envSet (envSet env "GH_TOKEN" t) "GH_ENTERPRISE_TOKEN" t
  | none => env

/-- Shallow embedding of `gh_wrapper._prepare_gh_cmd`
(`src/src/notehub/gh_wrapper.py` lines 25-63).  `osEnv` stands for
`os.environ`, copied on entry; `selectToken` is the literal token chain of
lines 44-50 and `apply_token` the conditional export of lines 52-55, each
factored out under its own name.  `GH_HOST` is then always set (line 58) and
the base command is copied and returned unchanged (line 61). -/
def _prepare_gh_cmd (host : String) (base_cmd : List String) (osEnv : Env) :
    List String × Env :=
  (base_cmd, envSet (apply_token osEnv) "GH_HOST" host)

/-! ## Cache data model

`notehub/cache.py` is absent from the source tree; only its unit tests
(`src/tests/unit/test_cache.py`) and its callers remain.  The definitions
below are modelled from the spec (sections 3, 4.1-4.3 and the on-disk layout
of section 6) and pinned by those tests. -/

/-- A cache directory address `root/<host>/<org>/<repo>/<leaf>`; `leaf` is the
raw leaf directory name, a candidate issue number. -/
structure NotePath where
  host : String
  org : String
  repo : String
  leaf : String
deriving DecidableEq, Repr

/-- Modelled from the spec: the on-disk state of one leaf directory of the
cache (spec section 6 layout).  `content` is the UTF-8 note body file,
`baseline` the last locally committed content held by the version-control
metadata, `hasGitMarker` the presence of that metadata directory (the
discovery signal), and `marker` the `last_known_updated_at` file stored
outside the tracked content. -/
structure LeafStore where
  hasGitMarker : Bool
  content : String
  baseline : String
  marker : Option String
deriving DecidableEq, Repr

/-- The whole cache: the finite set of leaf directories under the root, as an
association list keyed by path (a filesystem holds at most one directory per
path; lookup takes the first binding). -/
abbrev CacheState := List (NotePath × LeafStore)

/-- The leaf directory at `p`, if it exists. -/
def storeLookup : CacheState → NotePath → Option LeafStore
  | [], _ => none
  | (p1, st) :: rest, p => if p1 = p then some st else storeLookup rest p

/-- Overwrite the leaf directory at `p` (replace first binding, or append). -/
def storeUpdate : CacheState → NotePath → LeafStore → CacheState
  | [], p, st => [(p, st)]
  | (p1, st1) :: rest, p, st =>
      if p1 = p then (p, st) :: rest else (p1, st1) :: storeUpdate rest p st

/-- Modelled from the spec: the discovery parse of a leaf directory name
(spec section 4.1): an identity is recovered only when the leaf segment is a
strictly positive integer string; anything else is simply not a candidate. -/
def parseIssueNumber (s : String) : Option Nat :=
  if s.data ≠ [] ∧ s.data.all Char.isDigit then
    let n := s.data.foldl (fun acc c => 10 * acc + (c.toNat - 48)) 0
    if 0 < n then some n else none
  else none

/-- One discovery record of `find_all_cached_notes`:
`(host, org, repo, issue_number, path)`. -/
structure NoteRecord where
  host : String
  org : String
  repo : String
  issue_number : Nat
  path : NotePath
deriving DecidableEq, Repr

/-- Whether one leaf directory is picked up by discovery: positive-integer
leaf name and version-control marker both present. -/
def discoverable (p : NotePath) (st : LeafStore) : Bool :=
  (parseIssueNumber p.leaf).isSome && st.hasGitMarker

/-- Modelled from the spec: `cache.find_all_cached_notes` (spec section 4.3).
Walks `root/host/org/repo/issue_number` and returns one record per leaf
directory whose name parses as a strictly positive integer and which carries
the version-control marker; every other leaf directory is silently skipped.
A missing root is the empty cache, giving the empty list. -/
def find_all_cached_notes (cache : CacheState) : List NoteRecord :=
  cache.filterMap fun e =>
    match parseIssueNumber e.1.leaf with
    | some n =>
        if e.2.hasGitMarker then
          some ⟨e.1.host, e.1.org, e.1.repo, n, e.1⟩
        else none
    | none => none

/-- Modelled from the spec: `cache.is_dirty` on one store (spec section 4.2):
true iff current content differs from the last committed baseline; purely
local. -/
def is_dirty (st : LeafStore) : Bool :=
  st.content ≠ st.baseline

/-- `is_dirty` addressed by path: a path with no cache entry is not dirty. -/
def is_dirty_at (cache : CacheState) (p : NotePath) : Bool :=
  match storeLookup cache p with
  | some st => is_dirty st
  | none => false

/-- Modelled from the spec: `cache.find_dirty_cached_notes`
(spec section 4.3): `find_dirty() = filter(find_all(), is_dirty)`, pinned by
`test_find_dirty_cached_notes`. -/
def find_dirty_cached_notes (cache : CacheState) : List NoteRecord :=
  (find_all_cached_notes cache).filter fun r => is_dirty_at cache r.path

/-- Modelled from the spec: `cache.commit_if_dirty` (spec section 4.2): if
dirty, commit current content as the new baseline and return true; otherwise
a no-op returning false.  It runs only local version-control commands; its
type has no remote-call channel, so it cannot contact the remote store. -/
def commit_if_dirty (st : LeafStore) : LeafStore × Bool :=
  if st.content ≠ st.baseline then ({ st with baseline := st.content }, true)
  else (st, false)

/-- Modelled from the spec: `cache.get_note_content` (spec section 4.2):
the current file contents. -/
def get_note_content (st : LeafStore) : String :=
  st.content

/-- Modelled from the spec: `cache.set_last_known_updated_at`
(spec sections 3 and 4.2): writes the timestamp to the marker file persisted
alongside, not inside, the tracked content. -/
def set_last_known_updated_at (st : LeafStore) (t : String) : LeafStore :=
  { st with marker := some t }

/-! ## Sync reconciler

`notehub/commands/sync.py` and `notehub/commands/edit.py` are absent from the
source tree; only their unit tests (`src/tests/unit/test_commands.py`) remain.
The reconciler below is modelled from the spec (section 4.4), with two details
pinned by those tests: remote failures arrive as `GhError` values (defined in
`src/src/notehub/gh_wrapper.py` lines 9-14) carrying only a return code and
the stderr text, and the single-note flows (`sync NOTE`, and the auto-sync at
the end of `edit`) force the push even on a clean entry
(`test_sync_single_note_still_works` counts one remote update call with
`commit_if_dirty` returning false; `test_successful_edit` records one marker
write after a no-change edit). -/

/-- A note's identity: `{host, org, repo, issue_number}` (spec section 3). -/
structure NoteIdentity where
  host : String
  org : String
  repo : String
  issue_number : Nat
deriving DecidableEq, Repr

/-- Shallow embedding of `gh_wrapper.GhError`
(`src/src/notehub/gh_wrapper.py` lines 9-14): a failed gh CLI invocation,
carrying the process return code and the stderr text.  There is no kind tag
distinguishing not-found from other failures. -/
structure GhError where
  returncode : Int
  stderr : String
deriving DecidableEq, Repr

/-- One call made to the remote issue store. -/
inductive RemoteCall where
  | update (id : NoteIdentity) (body : String)
  | getMetadata (id : NoteIdentity)
deriving DecidableEq, Repr

/-- The remote collaborator's behavior, as an oracle: `update_issue` returns
`none` on success and `some e` when the gh call fails; `metadata_updated_at`
is the `updated_at` field returned by `get_issue_metadata`. -/
structure RemoteBehavior where
  update_issue : NoteIdentity → String → Option GhError
  metadata_updated_at : NoteIdentity → String

/-- Substring search on character lists (used for the 404 marker). -/
def hasSubstring (needle : List Char) : List Char → Bool
  | [] => needle.isEmpty
  | c :: rest => needle.isPrefixOf (c :: rest) || hasSubstring needle rest

/-- Modelled from the spec and pinned by `test_sync_cached_handles_404`: the
reconciler recognizes the remote "not found" failure by searching the
`GhError` stderr text for the `404` marker — `GhError` itself carries no
kind tag. -/
def gh_error_is_not_found (e : GhError) : Bool :=
  hasSubstring "404".data e.stderr.data

/-- Outcome of one single-note push (spec section 4.4): `noop` is the
no-remote-call success of step 2, the rest classify the remote update. -/
inductive SyncOutcome where
  | noop
  | synced
  | skipped
  | failed (reason : String)
deriving DecidableEq, Repr

/-- The reconciler's classification of a failed remote update: `skipped` for
the not-found text, `failed` (with the stderr as reason) for everything
else. -/
def classify_gh_error (e : GhError) : SyncOutcome :=
  if gh_error_is_not_found e then SyncOutcome.skipped
  else SyncOutcome.failed e.stderr

/-- Modelled from the spec: the single-note push algorithm (spec section 4.4):
commit local edits, stop with a no-op success when nothing was dirty and no
push is forced, otherwise push the content, classify the result, and on
success record the remote `updated_at` marker.  Returns the new store, the
outcome, and the remote calls made. -/
def sync_note (rb : RemoteBehavior) (id : NoteIdentity) (st : LeafStore)
    (force : Bool) : LeafStore × SyncOutcome × List RemoteCall :=
  let c := commit_if_dirty st
  if c.2 = false ∧ force = false then (c.1, SyncOutcome.noop, [])
  else
    let content := get_note_content c.1
    match rb.update_issue id content with
    | none =>
        let ts := rb.metadata_updated_at id
        (set_last_known_updated_at c.1 ts, SyncOutcome.synced,
          [RemoteCall.update id content, RemoteCall.getMetadata id])
    | some e =>
        (c.1, classify_gh_error e, [RemoteCall.update id content])

/-- The identity carried by a discovery record. -/
def recordIdentity (r : NoteRecord) : NoteIdentity :=
  ⟨r.host, r.org, r.repo, r.issue_number⟩

/-- One batch iteration: push the note at `r.path` (never forced in a batch)
and write its new store back; a record whose path has vanished from the cache
is recorded as failed without touching the cache (unreachable for records
produced by discovery). -/
def sync_note_at (rb : RemoteBehavior) (c : CacheState) (r : NoteRecord) :
    CacheState × SyncOutcome × List RemoteCall :=
  match storeLookup c r.path with
  | some st =>
      let s := sync_note rb (recordIdentity r) st false
      (storeUpdate c r.path s.1, s.2.1, s.2.2)
  | none => (c, SyncOutcome.failed "cache entry missing", [])

/-- Fold step of the batch: thread the cache, append the note's outcome and
its remote calls. -/
def sync_cached_step (rb : RemoteBehavior)
    (acc : CacheState × List SyncOutcome × List RemoteCall) (r : NoteRecord) :
    CacheState × List SyncOutcome × List RemoteCall :=
  let s := sync_note_at rb acc.1 r
  (s.1, acc.2.1 ++ [s.2.1], acc.2.2 ++ s.2.2)

/-- Modelled from the spec: the `sync --cached` batch algorithm
(spec section 4.4): discover the dirty notes once, then run the single-note
push for each in discovery order, accumulating every outcome; per-note
failures never abort the remaining notes. -/
def sync_cached (rb : RemoteBehavior) (cache : CacheState) :
    CacheState × List SyncOutcome × List RemoteCall :=
  (find_dirty_cached_notes cache).foldl (sync_cached_step rb) (cache, [], [])

/-- Outcome predicates for the batch counts. -/
def isSynced : SyncOutcome → Bool
  | SyncOutcome.synced => true
  | _ => false

def isSkipped : SyncOutcome → Bool
  | SyncOutcome.skipped => true
  | _ => false

def isFailed : SyncOutcome → Bool
  | SyncOutcome.failed _ => true
  | _ => false

/-- The Synced / Skipped / Failed counts of a batch's outcome list. -/
def syncedCount (outs : List SyncOutcome) : Nat := (outs.filter isSynced).length

def skippedCount (outs : List SyncOutcome) : Nat := (outs.filter isSkipped).length

def failedCount (outs : List SyncOutcome) : Nat := (outs.filter isFailed).length

/-- Modelled from the spec: the batch exit code (spec sections 4.4 and 6):
0 iff no note Failed (Skipped never counts against success; zero dirty notes
is the distinct "nothing to sync" success, also 0). -/
def sync_cached_exit (rb : RemoteBehavior) (cache : CacheState) : Nat :=
  if failedCount (sync_cached rb cache).2.1 = 0 then 0 else 1

/-- Modelled from the spec and pinned by `test_sync_single_note_still_works`:
the single-note path of `sync NOTE` runs the push algorithm with the push
forced (the test counts exactly one remote update call although
`commit_if_dirty` returned false). -/
def sync_single (rb : RemoteBehavior) (id : NoteIdentity) (st : LeafStore) :
    LeafStore × SyncOutcome × List RemoteCall :=
  sync_note rb id st true

/-- Exit code of the single-note sync: 1 on a Failed outcome, 0 otherwise. -/
def sync_single_exit (rb : RemoteBehavior) (id : NoteIdentity)
    (st : LeafStore) : Nat :=
  match (sync_single rb id st).2.1 with
  | SyncOutcome.failed _ => 1
  | _ => 0

/-- Modelled from the spec (section 4.5) and pinned by `test_successful_edit`:
the edit workflow's final auto-sync runs the single-note push with the push
forced (the test records one `set_last_known_updated_at` call after an edit
that changed nothing). -/
def edit_auto_sync (rb : RemoteBehavior) (id : NoteIdentity) (st : LeafStore) :
    LeafStore × SyncOutcome × List RemoteCall :=
  sync_note rb id st true

/-- Exit code of the edit workflow's final push: 1 on a Failed outcome,
0 otherwise. -/
def edit_exit (rb : RemoteBehavior) (id : NoteIdentity) (st : LeafStore) : Nat :=
  match (edit_auto_sync rb id st).2.1 with
  | SyncOutcome.failed _ => 1
  | _ => 0

/-- Remote `update` calls in a trace. -/
def isUpdateCall : RemoteCall → Bool
  | RemoteCall.update _ _ => true
  | _ => false

def updateCallCount (tr : List RemoteCall) : Nat := (tr.filter isUpdateCall).length

/-- The outcome a batch note receives, read off from a fixed cache state. -/
def sync_note_outcome_in (rb : RemoteBehavior) (c0 : CacheState)
    (r : NoteRecord) : SyncOutcome :=
  (sync_note_at rb c0 r).2.1

/-- The remote calls a batch note makes, read off from a fixed cache state. -/
def sync_note_trace_in (rb : RemoteBehavior) (c0 : CacheState)
    (r : NoteRecord) : List RemoteCall :=
  (sync_note_at rb c0 r).2.2

/-- The content a batch push sends for record `r`: the note file's current
contents (committing does not change them). -/
def pushed_content (c0 : CacheState) (r : NoteRecord) : String :=
  match storeLookup c0 r.path with
  | some st => st.content
  | none => ""

/-- A remote response that is success or the not-found failure. -/
def ok_or_not_found (resp : Option GhError) : Bool :=
  match resp with
  | none => true
  | some e => gh_error_is_not_found e

/-! ## Concrete fixtures (used by witnesses and counterexamples) -/

/-- A sample note identity. -/
def idFix : NoteIdentity := ⟨"github.com", "org", "repo", 1⟩

/-- A clean initialized entry: content equals the committed baseline. -/
def stClean : LeafStore := ⟨true, "content", "content", none⟩

/-- A dirty initialized entry. -/
def stDirty : LeafStore := ⟨true, "new content", "old content", none⟩

/-- A remote that accepts every update. -/
def rbOk : RemoteBehavior := ⟨fun _ _ => none, fun _ => "2024-01-01T00:00:00Z"⟩

/-- The gh failure of `test_sync_cached_handles_404`. -/
def err404 : GhError := ⟨1, "Not Found: 404"⟩

/-- The gh failure of `test_sync_cached_handles_other_errors`. -/
def errDenied : GhError := ⟨1, "Permission denied"⟩

/-- The gh failure of `test_sync_cached_mixed_results`. -/
def errRate : GhError := ⟨1, "API rate limit"⟩

/-- A remote on which every update fails with the not-found error. -/
def rb404 : RemoteBehavior := ⟨fun _ _ => some err404, fun _ => "ts"⟩

/-- A remote on which every update fails with a permission error. -/
def rbDenied : RemoteBehavior := ⟨fun _ _ => some errDenied, fun _ => "ts"⟩

/-- A cache directory address under `github.com/org/repo`. -/
def pathN (n : String) : NotePath := ⟨"github.com", "org", "repo", n⟩

/-- Three dirty notes, as in `test_sync_cached_mixed_results`. -/
def cache3 : CacheState :=
  [(pathN "1", stDirty), (pathN "2", ⟨true, "b", "a", none⟩),
   (pathN "3", ⟨true, "d", "c", none⟩)]

/-- Remote responses `{success, NotFound, TransportError}` for notes 1-3. -/
def rb3 : RemoteBehavior :=
  ⟨fun id _ =>
      if id.issue_number = 1 then none
      else if id.issue_number = 2 then some err404
      else some errRate,
   fun _ => "2024-01-01T00:00:00Z"⟩

/-- Two dirty notes, as in `test_sync_cached_handles_other_errors`. -/
def cache2 : CacheState :=
  [(pathN "1", stDirty), (pathN "2", ⟨true, "y", "x", none⟩)]

/-- Note 1 fails with a permission error, note 2 succeeds. -/
def rbC2 : RemoteBehavior :=
  ⟨fun id _ => if id.issue_number = 1 then some errDenied else none,
   fun _ => "ts"⟩

/-- One dirty note, as in `test_sync_cached_handles_404`. -/
def cache404 : CacheState := [(pathN "1", stDirty)]

/-- An environment where `GH_ENTERPRISE_TOKEN_2` is present but empty. -/
def envEmptyTok : Env := [("GH_ENTERPRISE_TOKEN_2", ""), ("GH_TOKEN", "x")]

/-- An environment with a plain `GH_TOKEN` and an (ignored) `GITHUB_TOKEN`. -/
def envPlainTok : Env := [("GH_TOKEN", "tok"), ("GITHUB_TOKEN", "pub")]

/-! ## Association-list lemmas -/

theorem envLookup_envSet (e : Env) (k v : String) (k2 : String) :
    envLookup (envSet e k v) k2 = if k = k2 then some v else envLookup e k2 := by
  induction e with
  | nil =>
      by_cases h : k = k2 <;> simp [envSet, envLookup, h]
  | cons hd tl ih =>
      obtain ⟨k1, v1⟩ := hd
      by_cases h1 : k1 = k
      · subst h1
        by_cases h2 : k1 = k2 <;> simp [envSet, envLookup, h2]
      · by_cases h2 : k1 = k2
        · subst h2
          have hk : ¬ k = k1 := fun h => h1 h.symm
          simp [envSet, envLookup, h1, hk, ih]
        · simp [envSet, envLookup, h1, h2, ih]

theorem envMem_envSet (e : Env) (k v : String) (k2 : String) :
    envMem (envSet e k v) k2 = (decide (k = k2) || envMem e k2) := by
  by_cases h : k = k2 <;> simp [envMem, envLookup_envSet, h]

theorem storeLookup_storeUpdate (c : CacheState) (p : NotePath) (st : LeafStore)
    (p2 : NotePath) :
    storeLookup (storeUpdate c p st) p2 =
      if p = p2 then some st else storeLookup c p2 := by
  induction c with
  | nil =>
      by_cases h : p = p2 <;> simp [storeUpdate, storeLookup, h]
  | cons hd tl ih =>
      obtain ⟨p1, st1⟩ := hd
      by_cases h1 : p1 = p
      · subst h1
        by_cases h2 : p1 = p2 <;> simp [storeUpdate, storeLookup, h2]
      · by_cases h2 : p1 = p2
        · subst h2
          have hk : ¬ p = p1 := fun h => h1 h.symm
          simp [storeUpdate, storeLookup, h1, hk, ih]
        · simp [storeUpdate, storeLookup, h1, h2, ih]

/-! ## Discovery lemmas -/

/-- Membership characterization of discovery. -/
theorem mem_find_all_cached_notes (cache : CacheState) (r : NoteRecord) :
    r ∈ find_all_cached_notes cache ↔
      ∃ st : LeafStore, (r.path, st) ∈ cache ∧
        r.host = r.path.host ∧ r.org = r.path.org ∧ r.repo = r.path.repo ∧
        parseIssueNumber r.path.leaf = some r.issue_number ∧
        st.hasGitMarker = true := by
  constructor
  · intro h
    rw [find_all_cached_notes, List.mem_filterMap] at h
    obtain ⟨e, he, hfe⟩ := h
    refine ⟨e.2, ?_, ?_⟩
    · cases hp : parseIssueNumber e.1.leaf with
      | none => rw [hp] at hfe; simp at hfe
      | some n =>
          rw [hp] at hfe
          by_cases hg : e.2.hasGitMarker = true
          · simp [hg] at hfe
            have : r.path = e.1 := by rw [← hfe]
            rw [this]
            exact he
          · simp [hg] at hfe
    · cases hp : parseIssueNumber e.1.leaf with
      | none => rw [hp] at hfe; simp at hfe
      | some n =>
          rw [hp] at hfe
          by_cases hg : e.2.hasGitMarker = true
          · simp [hg] at hfe
            rw [← hfe]
            simp [hp, hg]
          · simp [hg] at hfe
  · rintro ⟨st, hmem, hh, ho, hr, hp, hg⟩
    rw [find_all_cached_notes, List.mem_filterMap]
    refine ⟨(r.path, st), hmem, ?_⟩
    simp only [hp, hg, if_true]
    cases r with
    | mk host org repo num path =>
        simp only at hh ho hr ⊢
        rw [hh, ho, hr]

/-- Discovery yields one record per discoverable leaf directory. -/
theorem find_all_cached_notes_length (cache : CacheState) :
    (find_all_cached_notes cache).length =
      (cache.filter fun e => discoverable e.1 e.2).length := by
  induction cache with
  | nil => rfl
  | cons hd tl ih =>
      obtain ⟨p, st⟩ := hd
      simp only [find_all_cached_notes, List.filterMap_cons, List.filter_cons,
        discoverable] at ih ⊢
      cases hp : parseIssueNumber p.leaf with
      | none => simpa [hp] using ih
      | some n =>
          by_cases hg : st.hasGitMarker = true
          · simpa [hp, hg] using ih
          · simp only [Bool.not_eq_true] at hg
            simpa [hp, hg] using ih

/-- Membership in `find_dirty_cached_notes`. -/
theorem mem_find_dirty (cache : CacheState) (r : NoteRecord) :
    r ∈ find_dirty_cached_notes cache ↔
      r ∈ find_all_cached_notes cache ∧ is_dirty_at cache r.path = true := by
  rw [find_dirty_cached_notes, List.mem_filter]

/-! ## Note-store lemmas -/

theorem commit_if_dirty_snd (st : LeafStore) :
    (commit_if_dirty st).2 = is_dirty st := by
  rw [commit_if_dirty, is_dirty]
  by_cases h : st.content = st.baseline <;> simp [h]

theorem commit_if_dirty_fst (st : LeafStore) :
    (commit_if_dirty st).1 =
      if is_dirty st then { st with baseline := st.content } else st := by
  rw [commit_if_dirty, is_dirty]
  by_cases h : st.content = st.baseline <;> simp [h]

theorem commit_if_dirty_content (st : LeafStore) :
    (commit_if_dirty st).1.content = st.content := by
  rw [commit_if_dirty_fst]
  cases h : is_dirty st <;> simp [h]

theorem commit_if_dirty_marker (st : LeafStore) :
    (commit_if_dirty st).1.marker = st.marker := by
  rw [commit_if_dirty_fst]
  cases h : is_dirty st <;> simp [h]

theorem commit_if_dirty_git (st : LeafStore) :
    (commit_if_dirty st).1.hasGitMarker = st.hasGitMarker := by
  rw [commit_if_dirty_fst]
  cases h : is_dirty st <;> simp [h]

theorem commit_if_dirty_clean (st : LeafStore) (h : is_dirty st = false) :
    commit_if_dirty st = (st, false) := by
  rw [is_dirty] at h
  simp only [decide_eq_false_iff_not, not_not] at h
  rw [commit_if_dirty]
  simp [h]

theorem is_dirty_commit_if_dirty (st : LeafStore) :
    is_dirty (commit_if_dirty st).1 = false := by
  rw [commit_if_dirty_fst]
  cases h : is_dirty st
  · simp [h]
  · simp [is_dirty]

/-! ## Single-note push lemmas -/

/-- The spec's step-2 no-op branch: clean and not forced means no remote
call, no outcome beyond the no-op success, and an untouched store. -/
theorem sync_note_clean_not_forced (rb : RemoteBehavior) (id : NoteIdentity)
    (st : LeafStore) (h : is_dirty st = false) :
    sync_note rb id st false = (st, SyncOutcome.noop, []) := by
  rw [sync_note, commit_if_dirty_clean st h]
  simp

/-- When the entry is dirty or the push is forced, the push proceeds to the
remote update and classifies its result. -/
theorem sync_note_push (rb : RemoteBehavior) (id : NoteIdentity)
    (st : LeafStore) (force : Bool) (h : is_dirty st = true ∨ force = true) :
    sync_note rb id st force =
      match rb.update_issue id st.content with
      | none =>
          (set_last_known_updated_at (commit_if_dirty st).1
             (rb.metadata_updated_at id),
           SyncOutcome.synced,
           [RemoteCall.update id st.content, RemoteCall.getMetadata id])
      | some e =>
          ((commit_if_dirty st).1, classify_gh_error e,
           [RemoteCall.update id st.content]) := by
  have hc : ¬ ((commit_if_dirty st).2 = false ∧ force = false) := by
    rw [commit_if_dirty_snd]
    rcases h with h | h <;> simp [h]
  rw [sync_note]
  simp only [hc, if_false, get_note_content, commit_if_dirty_content]

theorem sync_note_dirty_outcome (rb : RemoteBehavior) (id : NoteIdentity)
    (st : LeafStore) (hd : is_dirty st = true) :
    (sync_note rb id st false).2.1 =
      match rb.update_issue id st.content with
      | none => SyncOutcome.synced
      | some e => classify_gh_error e := by
  rw [sync_note_push rb id st false (Or.inl hd)]
  cases hu : rb.update_issue id st.content <;> simp [hu]

/-- A dirty note receives exactly one remote update call. -/
theorem sync_note_dirty_update_count (rb : RemoteBehavior) (id : NoteIdentity)
    (st : LeafStore) (hd : is_dirty st = true) :
    updateCallCount (sync_note rb id st false).2.2 = 1 := by
  rw [sync_note_push rb id st false (Or.inl hd)]
  cases hu : rb.update_issue id st.content <;>
    simp [hu, updateCallCount, isUpdateCall, List.filter]

/-- On a failed remote update the store is exactly the post-commit store:
nothing on disk is touched by the failure. -/
theorem sync_note_error_store (rb : RemoteBehavior) (id : NoteIdentity)
    (st : LeafStore) (e : GhError) (hd : is_dirty st = true)
    (hu : rb.update_issue id st.content = some e) :
    (sync_note rb id st false).1 = (commit_if_dirty st).1 := by
  rw [sync_note_push rb id st false (Or.inl hd), hu]

/-! ## Batch lemmas -/

theorem sync_note_at_frame (rb : RemoteBehavior) (c : CacheState)
    (r : NoteRecord) (p : NotePath) (h : ¬ p = r.path) :
    storeLookup (sync_note_at rb c r).1 p = storeLookup c p := by
  rw [sync_note_at]
  cases hl : storeLookup c r.path with
  | none => rfl
  | some st =>
      simp only
      rw [storeLookup_storeUpdate]
      have hne : ¬ r.path = p := fun hh => h hh.symm
      simp [hne]

theorem sync_note_at_snd_congr (rb : RemoteBehavior) (c c2 : CacheState)
    (r : NoteRecord) (h : storeLookup c r.path = storeLookup c2 r.path) :
    (sync_note_at rb c r).2 = (sync_note_at rb c2 r).2 := by
  unfold sync_note_at
  rw [h]
  cases storeLookup c2 r.path <;> rfl

theorem sync_note_at_self_congr (rb : RemoteBehavior) (c c2 : CacheState)
    (r : NoteRecord) (h : storeLookup c r.path = storeLookup c2 r.path) :
    storeLookup (sync_note_at rb c r).1 r.path =
      storeLookup (sync_note_at rb c2 r).1 r.path := by
  unfold sync_note_at
  rw [h]
  cases hx : storeLookup c2 r.path with
  | none =>
      simp only
      rw [h, hx]
  | some st =>
      simp only
      rw [storeLookup_storeUpdate, storeLookup_storeUpdate]
      simp

/-- Full characterization of the batch fold: with pairwise-distinct note
paths, every note's outcome and remote calls are those computed from the
cache it was discovered in, every outcome is recorded in order, untouched
paths keep their stores, and each note's path ends up holding its own push
result. -/
theorem sync_fold_spec (rb : RemoteBehavior) (notes : List NoteRecord) :
    ∀ (c c0 : CacheState) (outs : List SyncOutcome) (tr : List RemoteCall),
      (notes.map NoteRecord.path).Nodup →
      (∀ r ∈ notes, storeLookup c r.path = storeLookup c0 r.path) →
      (notes.foldl (sync_cached_step rb) (c, outs, tr)).2.1 =
          outs ++ notes.map (sync_note_outcome_in rb c0) ∧
        (notes.foldl (sync_cached_step rb) (c, outs, tr)).2.2 =
          tr ++ notes.flatMap (sync_note_trace_in rb c0) ∧
        (∀ p : NotePath, p ∉ notes.map NoteRecord.path →
          storeLookup (notes.foldl (sync_cached_step rb) (c, outs, tr)).1 p =
            storeLookup c p) ∧
        (∀ r ∈ notes,
          storeLookup (notes.foldl (sync_cached_step rb) (c, outs, tr)).1
              r.path =
            storeLookup (sync_note_at rb c0 r).1 r.path) := by
  induction notes with
  | nil =>
      intro c c0 outs tr _ _
      refine ⟨by simp, by simp, fun p _ => rfl,
        fun r hr => absurd hr (List.not_mem_nil r)⟩
  | cons r rest ih =>
      intro c c0 outs tr hnd hag
      rw [List.map_cons, List.nodup_cons] at hnd
      obtain ⟨hnotin, hnd2⟩ := hnd
      have hagr : storeLookup c r.path = storeLookup c0 r.path :=
        hag r (List.mem_cons_self r rest)
      rw [List.foldl_cons]
      have hstep : sync_cached_step rb (c, outs, tr) r =
          ((sync_note_at rb c r).1, outs ++ [(sync_note_at rb c r).2.1],
            tr ++ (sync_note_at rb c r).2.2) := rfl
      rw [hstep]
      have hag2 : ∀ r2 ∈ rest,
          storeLookup (sync_note_at rb c r).1 r2.path =
            storeLookup c0 r2.path := by
        intro r2 hr2
        have hne : ¬ r2.path = r.path := by
          intro hpp
          exact hnotin (by rw [← hpp]; exact List.mem_map_of_mem _ hr2)
        rw [sync_note_at_frame rb c r r2.path hne]
        exact hag r2 (List.mem_cons_of_mem r hr2)
      obtain ⟨h1, h2, h3, h4⟩ := ih (sync_note_at rb c r).1 c0
        (outs ++ [(sync_note_at rb c r).2.1])
        (tr ++ (sync_note_at rb c r).2.2) hnd2 hag2
      have houtc : (sync_note_at rb c r).2.1 = sync_note_outcome_in rb c0 r :=
        congrArg Prod.fst (sync_note_at_snd_congr rb c c0 r hagr)
      have htrc : (sync_note_at rb c r).2.2 = sync_note_trace_in rb c0 r :=
        congrArg Prod.snd (sync_note_at_snd_congr rb c c0 r hagr)
      refine ⟨?_, ?_, ?_, ?_⟩
      · rw [h1, houtc, List.map_cons]
        simp
      · rw [h2, htrc, List.flatMap_cons]
        simp
      · intro p hp
        rw [List.map_cons, List.mem_cons] at hp
        push_neg at hp
        obtain ⟨hp1, hp2⟩ := hp
        rw [h3 p hp2, sync_note_at_frame rb c r p hp1]
      · intro r2 hr2
        rw [List.mem_cons] at hr2
        rcases hr2 with hr2 | hr2
        · subst hr2
          rw [h3 r2.path hnotin]
          exact sync_note_at_self_congr rb c c0 r2 hagr
        · exact h4 r2 hr2

theorem sync_cached_outcomes (rb : RemoteBehavior) (cache : CacheState)
    (hnd : ((find_dirty_cached_notes cache).map NoteRecord.path).Nodup) :
    (sync_cached rb cache).2.1 =
      (find_dirty_cached_notes cache).map (sync_note_outcome_in rb cache) := by
  have h := sync_fold_spec rb (find_dirty_cached_notes cache) cache cache [] []
    hnd (fun r _ => rfl)
  rw [sync_cached]
  simpa using h.1

theorem sync_cached_trace (rb : RemoteBehavior) (cache : CacheState)
    (hnd : ((find_dirty_cached_notes cache).map NoteRecord.path).Nodup) :
    (sync_cached rb cache).2.2 =
      (find_dirty_cached_notes cache).flatMap (sync_note_trace_in rb cache) := by
  have h := sync_fold_spec rb (find_dirty_cached_notes cache) cache cache [] []
    hnd (fun r _ => rfl)
  rw [sync_cached]
  simpa using h.2.1

theorem sync_cached_store (rb : RemoteBehavior) (cache : CacheState)
    (hnd : ((find_dirty_cached_notes cache).map NoteRecord.path).Nodup)
    (r : NoteRecord) (hr : r ∈ find_dirty_cached_notes cache) :
    storeLookup (sync_cached rb cache).1 r.path =
      storeLookup (sync_note_at rb cache r).1 r.path := by
  have h := sync_fold_spec rb (find_dirty_cached_notes cache) cache cache [] []
    hnd (fun r2 _ => rfl)
  exact h.2.2.2 r hr

theorem is_dirty_at_some (cache : CacheState) (p : NotePath)
    (h : is_dirty_at cache p = true) :
    ∃ st, storeLookup cache p = some st ∧ is_dirty st = true := by
  rw [is_dirty_at] at h
  cases hl : storeLookup cache p with
  | none => rw [hl] at h; simp at h
  | some st => rw [hl] at h; exact ⟨st, rfl, h⟩

theorem sync_note_at_dirty (rb : RemoteBehavior) (cache : CacheState)
    (r : NoteRecord) (st : LeafStore)
    (hl : storeLookup cache r.path = some st) :
    (sync_note_at rb cache r).2 =
        (sync_note rb (recordIdentity r) st false).2 ∧
      storeLookup (sync_note_at rb cache r).1 r.path =
        some (sync_note rb (recordIdentity r) st false).1 := by
  unfold sync_note_at
  rw [hl]
  exact ⟨rfl, by simp [storeLookup_storeUpdate]⟩

theorem failedCount_eq_zero (outs : List SyncOutcome) :
    failedCount outs = 0 ↔ ∀ o ∈ outs, isFailed o = false := by
  rw [failedCount, List.length_eq_zero, List.filter_eq_nil_iff]
  simp

theorem sync_cached_exit_iff (rb : RemoteBehavior) (cache : CacheState) :
    sync_cached_exit rb cache = 0 ↔
      failedCount (sync_cached rb cache).2.1 = 0 := by
  rw [sync_cached_exit]
  by_cases h : failedCount (sync_cached rb cache).2.1 = 0 <;> simp [h]

/-- The outcome of a dirty note in a batch, from the discovery-time cache. -/
theorem sync_note_outcome_in_dirty (rb : RemoteBehavior) (cache : CacheState)
    (r : NoteRecord) (st : LeafStore)
    (hl : storeLookup cache r.path = some st) (hd : is_dirty st = true) :
    sync_note_outcome_in rb cache r =
      match rb.update_issue (recordIdentity r) st.content with
      | none => SyncOutcome.synced
      | some e => classify_gh_error e := by
  rw [sync_note_outcome_in]
  rw [congrArg Prod.fst (sync_note_at_dirty rb cache r st hl).1]
  exact sync_note_dirty_outcome rb (recordIdentity r) st hd

/-- Each dirty note in a batch makes exactly one remote update attempt. -/
theorem sync_note_trace_in_dirty (rb : RemoteBehavior) (cache : CacheState)
    (r : NoteRecord) (hr : r ∈ find_dirty_cached_notes cache) :
    updateCallCount (sync_note_trace_in rb cache r) = 1 := by
  obtain ⟨hall, hdz⟩ := (mem_find_dirty cache r).1 hr
  obtain ⟨st, hl, hd⟩ := is_dirty_at_some cache r.path hdz
  rw [sync_note_trace_in]
  rw [congrArg Prod.snd (sync_note_at_dirty rb cache r st hl).1]
  exact sync_note_dirty_update_count rb (recordIdentity r) st hd

theorem updateCallCount_flatMap (f : NoteRecord -> List RemoteCall)
    (l : List NoteRecord) (h : forall r, r ∈ l -> updateCallCount (f r) = 1) :
    updateCallCount (l.flatMap f) = l.length := by
  induction l with
  | nil => rfl
  | cons r rest ih =>
      rw [List.flatMap_cons, updateCallCount, List.filter_append,
        List.length_append, ← updateCallCount, ← updateCallCount,
        h r (List.mem_cons_self r rest),
        ih (fun r2 hr2 => h r2 (List.mem_cons_of_mem r hr2)),
        List.length_cons, Nat.add_comm]

theorem pushed_content_eq (cache : CacheState) (r : NoteRecord)
    (st : LeafStore) (hl : storeLookup cache r.path = some st) :
    pushed_content cache r = st.content := by
  rw [pushed_content, hl]

/-! ## Claims -/

/-- C6: for every cache state, `find_dirty_cached_notes` returns exactly the
subset of `find_all_cached_notes` records whose paths satisfy `is_dirty`
(membership equivalence, hence set equality, order-independent): every dirty
discovered note is included and no clean or undiscovered note is. -/
theorem claim_C6_find_dirty_is_filter (cache : CacheState) (r : NoteRecord) :
    r ∈ find_dirty_cached_notes cache ↔
      r ∈ find_all_cached_notes cache ∧ is_dirty_at cache r.path = true :=
  mem_find_dirty cache r

/-- C7: discovery returns one record per leaf directory whose leaf name is a
strictly positive integer string and which carries the version-control
marker: the record count equals the number of such leaves, and a record is
returned exactly for such a leaf — every leaf failing either check is
silently omitted (discovery is total, no error), independently of whether
sibling entries are valid. -/
theorem claim_C7_find_all_valid_leaves (cache : CacheState) :
    ((find_all_cached_notes cache).length =
        (cache.filter fun e => discoverable e.1 e.2).length) ∧
      ∀ r : NoteRecord,
        r ∈ find_all_cached_notes cache ↔
          ∃ st : LeafStore, (r.path, st) ∈ cache ∧
            r.host = r.path.host ∧ r.org = r.path.org ∧ r.repo = r.path.repo ∧
            parseIssueNumber r.path.leaf = some r.issue_number ∧
            st.hasGitMarker = true :=
  ⟨find_all_cached_notes_length cache,
    fun r => mem_find_all_cached_notes cache r⟩

/-- C8: `commit_if_dirty` returns whether it committed — true exactly when
the entry was dirty — and committing makes the current content the new
baseline and changes nothing else; a second call with no intervening
mutation is a no-op returning false (idempotent commit).  The operation is
local by construction: its type has no remote-call channel. -/
theorem claim_C8_commit_if_dirty_idempotent (st : LeafStore) :
    (commit_if_dirty st).2 = is_dirty st ∧
      (commit_if_dirty st).1 =
        (if is_dirty st then { st with baseline := st.content } else st) ∧
      (commit_if_dirty (commit_if_dirty st).1).2 = false ∧
      commit_if_dirty (commit_if_dirty st).1 = ((commit_if_dirty st).1, false) := by
  refine ⟨commit_if_dirty_snd st, commit_if_dirty_fst st, ?_, ?_⟩
  · rw [commit_if_dirty_snd, is_dirty_commit_if_dirty]
  · exact commit_if_dirty_clean _ (is_dirty_commit_if_dirty st)

/-- C9: `set_last_known_updated_at` writes only the revision marker: the
entry content, the committed baseline, the init marker — and therefore
`is_dirty` — are all unchanged (in particular a clean entry stays clean). -/
theorem claim_C9_set_marker_frame (st : LeafStore) (t : String) :
    (set_last_known_updated_at st t).content = st.content ∧
      (set_last_known_updated_at st t).baseline = st.baseline ∧
      (set_last_known_updated_at st t).hasGitMarker = st.hasGitMarker ∧
      is_dirty (set_last_known_updated_at st t) = is_dirty st ∧
      (set_last_known_updated_at st t).marker = some t :=
  ⟨rfl, rfl, rfl, rfl, rfl⟩

/-- C3: a batch over three dirty notes whose remote updates respectively
succeed, fail with the 404 not-found error, and fail with a rate-limit error
accumulates Synced=1, Skipped=1, Failed=1 and exits with code 1; in general
the batch result is success (exit 0) iff the Failed count is zero. -/
theorem claim_C3_mixed_batch_counts :
    (syncedCount (sync_cached rb3 cache3).2.1 = 1 ∧
        skippedCount (sync_cached rb3 cache3).2.1 = 1 ∧
        failedCount (sync_cached rb3 cache3).2.1 = 1 ∧
        sync_cached_exit rb3 cache3 = 1) ∧
      ∀ (rb : RemoteBehavior) (cache : CacheState),
        sync_cached_exit rb cache = 0 ↔
          failedCount (sync_cached rb cache).2.1 = 0 :=
  ⟨by decide, fun rb cache => sync_cached_exit_iff rb cache⟩

/-- C2: in a batch sync over the dirty notes (whose cache paths are pairwise
distinct, as directories of one filesystem), a failure on any note never
prevents the others from being processed: the batch records exactly one
outcome per dirty note, in order, each determined by that note's own
discovery-time data, and makes exactly one remote update attempt per dirty
note, aggregating all outcomes instead of aborting. -/
theorem claim_C2_batch_fault_isolation (rb : RemoteBehavior)
    (cache : CacheState)
    (hnd : ((find_dirty_cached_notes cache).map NoteRecord.path).Nodup) :
    (sync_cached rb cache).2.1 =
        (find_dirty_cached_notes cache).map (sync_note_outcome_in rb cache) ∧
      (sync_cached rb cache).2.1.length =
        (find_dirty_cached_notes cache).length ∧
      updateCallCount (sync_cached rb cache).2.2 =
        (find_dirty_cached_notes cache).length := by
  refine ⟨sync_cached_outcomes rb cache hnd, ?_, ?_⟩
  · rw [sync_cached_outcomes rb cache hnd, List.length_map]
  · rw [sync_cached_trace rb cache hnd]
    exact updateCallCount_flatMap _ _
      (fun r hr => sync_note_trace_in_dirty rb cache r hr)

/-- C2 witness: a concrete two-note batch where the first push fails with a
permission error still pushes and records both notes. -/
theorem claim_C2_batch_fault_isolation_witness :
    (sync_cached rbC2 cache2).2.1.length =
        (find_dirty_cached_notes cache2).length ∧
      updateCallCount (sync_cached rbC2 cache2).2.2 =
        (find_dirty_cached_notes cache2).length :=
  ⟨(claim_C2_batch_fault_isolation rbC2 cache2 (by decide)).2.1,
    (claim_C2_batch_fault_isolation rbC2 cache2 (by decide)).2.2⟩

/-! ## Environment-preparation lemmas -/

theorem envMem_envSet_of (e : Env) (k2 v k : String) (h : envMem e k = true) :
    envMem (envSet e k2 v) k = true := by
  rw [envMem_envSet, h, Bool.or_true]

theorem apply_token_other (env : Env) (k : String) (h1 : k ≠ "GH_TOKEN")
    (h2 : k ≠ "GH_ENTERPRISE_TOKEN") :
    envLookup (apply_token env) k = envLookup env k := by
  rw [apply_token]
  cases hsel : selectToken env with
  | none => rfl
  | some t =>
      by_cases ht : t = ""
      · simp [ht]
      · simp [ht, envLookup_envSet, Ne.symm h1, Ne.symm h2]

theorem apply_token_mem (env : Env) (k : String) (h : envMem env k = true) :
    envMem (apply_token env) k = true := by
  rw [apply_token]
  cases hsel : selectToken env with
  | none => exact h
  | some t =>
      by_cases ht : t = ""
      · simp [ht, h]
      · simp only [ht, if_false]
        exact envMem_envSet_of _ _ _ _ (envMem_envSet_of _ _ _ _ h)

theorem apply_token_sets (env : Env) (t : String)
    (hsel : selectToken env = some t) (ht : t ≠ "") :
    envLookup (apply_token env) "GH_TOKEN" = some t ∧
      envLookup (apply_token env) "GH_ENTERPRISE_TOKEN" = some t := by
  rw [apply_token, hsel]
  simp only [ht, if_false]
  constructor
  · rw [envLookup_envSet]
    have hne : ("GH_ENTERPRISE_TOKEN" : String) ≠ "GH_TOKEN" := by decide
    rw [if_neg hne, envLookup_envSet, if_pos rfl]
  · rw [envLookup_envSet, if_pos rfl]

theorem apply_token_falsy (env : Env)
    (h : (selectToken env).getD "" = "") : apply_token env = env := by
  rw [apply_token]
  cases hsel : selectToken env with
  | none => rfl
  | some t =>
      rw [hsel] at h
      simp only [Option.getD_some] at h
      simp [h]

theorem selectToken_ignores_github_token (env : Env) (v : String) :
    selectToken (envSet env "GITHUB_TOKEN" v) = selectToken env := by
  have h1 : ("GITHUB_TOKEN" : String) ≠ "GH_ENTERPRISE_TOKEN_2" := by decide
  have h2 : ("GITHUB_TOKEN" : String) ≠ "GH_ENTERPRISE_TOKEN" := by decide
  have h3 : ("GITHUB_TOKEN" : String) ≠ "GH_TOKEN" := by decide
  rw [selectToken, selectToken]
  rw [envMem_envSet, envMem_envSet, envMem_envSet,
    envLookup_envSet, envLookup_envSet, envLookup_envSet]
  simp [h1, h2, h3]

/-- C10 counterexample: with `GH_ENTERPRISE_TOKEN_2` present but holding the
empty string (and `GH_TOKEN` holding "x"), `_prepare_gh_cmd` sets neither
`GH_TOKEN` nor `GH_ENTERPRISE_TOKEN` to the selected value: the priority
chain stops at the first *present* variable, whose empty value Python's
`if token:` then treats as falsy, so nothing is exported — refuting "when one
of the three is present it sets both GH_TOKEN and GH_ENTERPRISE_TOKEN to
that value". -/
theorem claim_C10_counterexample :
    envMem envEmptyTok "GH_ENTERPRISE_TOKEN_2" = true ∧
      selectToken envEmptyTok = some "" ∧
      envLookup (_prepare_gh_cmd "github.com" ["gh"] envEmptyTok).2
          "GH_ENTERPRISE_TOKEN" = none ∧
      ¬ envLookup (_prepare_gh_cmd "github.com" ["gh"] envEmptyTok).2
          "GH_TOKEN" = some "" := by
  decide

/-- C10 amended: `_prepare_gh_cmd` selects the token by the fixed,
host-independent presence priority `GH_ENTERPRISE_TOKEN_2` over
`GH_ENTERPRISE_TOKEN` over `GH_TOKEN` (never reading `GITHUB_TOKEN`); it
sets both `GH_TOKEN` and `GH_ENTERPRISE_TOKEN` to the selected value exactly
when that value is non-empty — a selected empty value leaves every variable
unchanged (Python truthiness) — it never removes any variable, it always
sets `GH_HOST` to the given host, and it returns the base command
unmodified. -/
theorem claim_C10_prepare_gh_cmd_amended (host : String)
    (base_cmd : List String) (env : Env) :
    (_prepare_gh_cmd host base_cmd env).1 = base_cmd ∧
      envLookup (_prepare_gh_cmd host base_cmd env).2 "GH_HOST" = some host ∧
      (∀ k : String, k ≠ "GH_TOKEN" → k ≠ "GH_ENTERPRISE_TOKEN" →
        k ≠ "GH_HOST" →
        envLookup (_prepare_gh_cmd host base_cmd env).2 k = envLookup env k) ∧
      (∀ k : String, envMem env k = true →
        envMem (_prepare_gh_cmd host base_cmd env).2 k = true) ∧
      (∀ t : String, selectToken env = some t → t ≠ "" →
        envLookup (_prepare_gh_cmd host base_cmd env).2 "GH_TOKEN" = some t ∧
          envLookup (_prepare_gh_cmd host base_cmd env).2 "GH_ENTERPRISE_TOKEN" =
            some t) ∧
      ((selectToken env).getD "" = "" →
        ∀ k : String, k ≠ "GH_HOST" →
          envLookup (_prepare_gh_cmd host base_cmd env).2 k = envLookup env k) ∧
      (∀ v : String, selectToken (envSet env "GITHUB_TOKEN" v) =
        selectToken env) := by
  refine ⟨rfl, ?_, ?_, ?_, ?_, ?_, fun v => selectToken_ignores_github_token env v⟩
  · rw [_prepare_gh_cmd]
    simp only
    rw [envLookup_envSet, if_pos rfl]
  · intro k hk1 hk2 hk3
    rw [_prepare_gh_cmd]
    simp only
    rw [envLookup_envSet, if_neg (Ne.symm hk3)]
    exact apply_token_other env k hk1 hk2
  · intro k hk
    rw [_prepare_gh_cmd]
    simp only
    exact envMem_envSet_of _ _ _ _ (apply_token_mem env k hk)
  · intro t hsel ht
    have h := apply_token_sets env t hsel ht
    have hg1 : ("GH_HOST" : String) ≠ "GH_TOKEN" := by decide
    have hg2 : ("GH_HOST" : String) ≠ "GH_ENTERPRISE_TOKEN" := by decide
    rw [_prepare_gh_cmd]
    simp only
    rw [envLookup_envSet, if_neg hg1, envLookup_envSet, if_neg hg2]
    exact h
  · intro hfalsy k hk
    rw [_prepare_gh_cmd]
    simp only
    rw [envLookup_envSet, if_neg (Ne.symm hk), apply_token_falsy env hfalsy]

/-- C10 witness: with `GH_TOKEN=tok` and `GITHUB_TOKEN=pub`, the prepared
environment exports `tok` to both token variables and leaves `GITHUB_TOKEN`
alone. -/
theorem claim_C10_prepare_gh_cmd_amended_witness :
    envLookup (_prepare_gh_cmd "example.com" ["gh", "api"] envPlainTok).2
        "GH_TOKEN" = some "tok" ∧
      envLookup (_prepare_gh_cmd "example.com" ["gh", "api"] envPlainTok).2
        "GH_ENTERPRISE_TOKEN" = some "tok" ∧
      envLookup (_prepare_gh_cmd "example.com" ["gh", "api"] envPlainTok).2
        "GITHUB_TOKEN" = some "pub" := by
  have h := claim_C10_prepare_gh_cmd_amended "example.com" ["gh", "api"] envPlainTok
  exact ⟨(h.2.2.2.2.1 "tok" (by decide) (by decide)).1,
    (h.2.2.2.2.1 "tok" (by decide) (by decide)).2,
    h.2.2.1 "GITHUB_TOKEN" (by decide) (by decide) (by decide)⟩

/-- C1 counterexample: on a clean entry (`commit_if_dirty` returns false, no
content change) the program's single-note sync and the push run at the end
of an edit still make a remote update call — exactly one, not zero — so the
claimed "no-op success without making any remote update call / zero remote
update calls" is false for these flows. -/
theorem claim_C1_counterexample :
    is_dirty stClean = false ∧
      (commit_if_dirty stClean).2 = false ∧
      updateCallCount (sync_single rbOk idFix stClean).2.2 = 1 ∧
      ¬ updateCallCount (sync_single rbOk idFix stClean).2.2 = 0 ∧
      updateCallCount (edit_auto_sync rbOk idFix stClean).2.2 = 1 ∧
      ¬ updateCallCount (edit_auto_sync rbOk idFix stClean).2.2 = 0 := by
  decide

/-- C1 amended: the Reconciler's no-op branch holds as specified — a push
that is not forced on a clean entry is a no-op success touching neither the
store nor the remote — but the single-note flows (`sync NOTE` and the edit's
final auto-sync) invoke the push with the force flag set, so on a clean
entry they make exactly one remote update call and, when the remote accepts
it, return success (exit code 0) with outcome Synced. -/
theorem claim_C1_clean_single_note_amended (rb : RemoteBehavior)
    (id : NoteIdentity) (st : LeafStore) (h : is_dirty st = false) :
    sync_note rb id st false = (st, SyncOutcome.noop, []) ∧
      (rb.update_issue id st.content = none →
        (sync_single rb id st).2.1 = SyncOutcome.synced ∧
          updateCallCount (sync_single rb id st).2.2 = 1 ∧
          sync_single_exit rb id st = 0 ∧
          (edit_auto_sync rb id st).2.1 = SyncOutcome.synced ∧
          updateCallCount (edit_auto_sync rb id st).2.2 = 1 ∧
          edit_exit rb id st = 0) := by
  refine ⟨sync_note_clean_not_forced rb id st h, fun hu => ?_⟩
  have hp := sync_note_push rb id st true (Or.inr rfl)
  rw [hu] at hp
  have hsp : sync_single rb id st = sync_note rb id st true := rfl
  have hep : edit_auto_sync rb id st = sync_note rb id st true := rfl
  have h1 : (sync_single rb id st).2.1 = SyncOutcome.synced := by rw [hsp, hp]
  have h2 : updateCallCount (sync_single rb id st).2.2 = 1 := by
    rw [hsp, hp]
    simp [updateCallCount, isUpdateCall, List.filter]
  have h1e : (edit_auto_sync rb id st).2.1 = SyncOutcome.synced := by
    rw [hep, hp]
  have h2e : updateCallCount (edit_auto_sync rb id st).2.2 = 1 := by
    rw [hep, hp]
    simp [updateCallCount, isUpdateCall, List.filter]
  refine ⟨h1, h2, ?_, h1e, h2e, ?_⟩
  · simp [sync_single_exit, h1]
  · simp [edit_exit, h1e]

/-- C1 witness: the concrete clean entry with an accepting remote. -/
theorem claim_C1_clean_single_note_amended_witness :
    sync_note rbOk idFix stClean false = (stClean, SyncOutcome.noop, []) ∧
      updateCallCount (sync_single rbOk idFix stClean).2.2 = 1 ∧
      edit_exit rbOk idFix stClean = 0 := by
  have h := claim_C1_clean_single_note_amended rbOk idFix stClean (by decide)
  exact ⟨h.1, (h.2 rfl).2.1, (h.2 rfl).2.2.2.2.2⟩

/-- C5 counterexample: two remote failures identical except for their message
strings (`GhError 1 "Not Found: 404"` vs `GhError 1 "Permission denied"` —
equal return codes, the only other datum `GhError` carries) are classified
differently by the Reconciler on the same dirty entry: the classification
reads the error text, and the boundary assigns no kind tag it could use
instead. -/
theorem claim_C5_counterexample :
    err404.returncode = errDenied.returncode ∧
      (sync_note rb404 idFix stDirty false).2.1 = SyncOutcome.skipped ∧
      (sync_note rbDenied idFix stDirty false).2.1 =
        SyncOutcome.failed "Permission denied" ∧
      ¬ (sync_note rb404 idFix stDirty false).2.1 =
          (sync_note rbDenied idFix stDirty false).2.1 := by
  decide

/-- C5 amended: the Reconciler's Skipped/Failed split is computed by
string-matching the failure's stderr text for the 404 marker, not from any
boundary-assigned kind (`GhError` has none): failures with equal stderr are
classified identically whatever their return codes, the class is Skipped
exactly when the text matches, and a dirty push's outcome on a failed update
is precisely this text-based classification. -/
theorem claim_C5_classification_amended (e1 e2 : GhError)
    (h : e1.stderr = e2.stderr) :
    classify_gh_error e1 = classify_gh_error e2 ∧
      (classify_gh_error e1 = SyncOutcome.skipped ↔
        gh_error_is_not_found e1 = true) ∧
      ∀ (rb : RemoteBehavior) (id : NoteIdentity) (st : LeafStore),
        is_dirty st = true → rb.update_issue id st.content = some e1 →
          (sync_note rb id st false).2.1 = classify_gh_error e1 := by
  refine ⟨?_, ?_, ?_⟩
  · rw [classify_gh_error, classify_gh_error, gh_error_is_not_found,
      gh_error_is_not_found, h]
  · cases hn : gh_error_is_not_found e1 <;> simp [classify_gh_error, hn]
  · intro rb id st hd hu
    rw [sync_note_dirty_outcome rb id st hd, hu]

/-- C5 witness: equal texts with different return codes classify alike, and a
concrete dirty push's outcome is the text-based classification. -/
theorem claim_C5_classification_amended_witness :
    classify_gh_error err404 = classify_gh_error ⟨2, "Not Found: 404"⟩ ∧
      (sync_note rbDenied idFix stDirty false).2.1 =
        classify_gh_error errDenied := by
  have h1 := claim_C5_classification_amended err404 ⟨2, "Not Found: 404"⟩ rfl
  have h2 := claim_C5_classification_amended errDenied errDenied rfl
  exact ⟨h1.1, h2.2.2 rbDenied idFix stDirty (by decide) rfl⟩

/-- C4: a remote not-found failure yields outcome Skipped; the local entry is
left on disk — still present at its path, content file and revision marker
untouched, the only local change being the baseline commit that froze the
edits before the push — the batch still records one outcome per dirty note,
and a batch whose every remote response is success-or-not-found exits with
code 0. -/
theorem claim_C4_not_found_skipped :
    (∀ (rb : RemoteBehavior) (cache : CacheState) (r : NoteRecord)
        (st : LeafStore) (e : GhError),
      ((find_dirty_cached_notes cache).map NoteRecord.path).Nodup →
      r ∈ find_dirty_cached_notes cache →
      storeLookup cache r.path = some st →
      rb.update_issue (recordIdentity r) st.content = some e →
      gh_error_is_not_found e = true →
      sync_note_outcome_in rb cache r = SyncOutcome.skipped ∧
        storeLookup (sync_cached rb cache).1 r.path =
          some ((commit_if_dirty st).1) ∧
        ((commit_if_dirty st).1).content = st.content ∧
        ((commit_if_dirty st).1).marker = st.marker ∧
        (sync_cached rb cache).2.1.length =
          (find_dirty_cached_notes cache).length) ∧
    ∀ (rb : RemoteBehavior) (cache : CacheState),
      ((find_dirty_cached_notes cache).map NoteRecord.path).Nodup →
      (∀ r ∈ find_dirty_cached_notes cache,
        ok_or_not_found
          (rb.update_issue (recordIdentity r) (pushed_content cache r)) =
          true) →
      sync_cached_exit rb cache = 0 := by
  constructor
  · intro rb cache r st e hnd hr hl hu h404
    obtain ⟨hall, hdz⟩ := (mem_find_dirty cache r).1 hr
    obtain ⟨st2, hl2, hd2⟩ := is_dirty_at_some cache r.path hdz
    rw [hl] at hl2
    have hst : st = st2 := Option.some.inj hl2
    rw [← hst] at hd2
    refine ⟨?_, ?_, commit_if_dirty_content st, commit_if_dirty_marker st, ?_⟩
    · rw [sync_note_outcome_in_dirty rb cache r st hl hd2, hu]
      simp [classify_gh_error, h404]
    · rw [sync_cached_store rb cache hnd r hr,
        (sync_note_at_dirty rb cache r st hl).2,
        sync_note_error_store rb (recordIdentity r) st e hd2 hu]
    · rw [sync_cached_outcomes rb cache hnd, List.length_map]
  · intro rb cache hnd hall
    rw [sync_cached_exit_iff, sync_cached_outcomes rb cache hnd,
      failedCount_eq_zero]
    intro o ho
    rw [List.mem_map] at ho
    obtain ⟨r, hr, ho⟩ := ho
    obtain ⟨_, hdz⟩ := (mem_find_dirty cache r).1 hr
    obtain ⟨st, hl, hd⟩ := is_dirty_at_some cache r.path hdz
    rw [← ho, sync_note_outcome_in_dirty rb cache r st hl hd]
    have hresp := hall r hr
    rw [pushed_content_eq cache r st hl] at hresp
    cases hu : rb.update_issue (recordIdentity r) st.content with
    | none => simp [isFailed]
    | some e =>
        rw [hu] at hresp
        simp only [ok_or_not_found] at hresp
        simp [classify_gh_error, hresp, isFailed]

/-- C4 witness: one dirty note answered by the 404 failure: Skipped outcome,
entry still cached, batch exit 0. -/
theorem claim_C4_not_found_skipped_witness :
    sync_note_outcome_in rb404 cache404
        ⟨"github.com", "org", "repo", 1, pathN "1"⟩ = SyncOutcome.skipped ∧
      sync_cached_exit rb404 cache404 = 0 :=
  ⟨(claim_C4_not_found_skipped.1 rb404 cache404
      ⟨"github.com", "org", "repo", 1, pathN "1"⟩ stDirty err404
      (by decide) (by decide) (by decide) (by decide) (by decide)).1,
    claim_C4_not_found_skipped.2 rb404 cache404 (by decide) (by decide)⟩

end Notehub
